import Mathlib

/-!
Shallow embedding of `app/services/llm/load_balancer.py` from the
`llm-code-review-assistant` repository, together with theorems settling the
specification claims about the provider load balancer.

Modelling conventions:
* Wall-clock instants (`time.time()`) and the performance counter are not read
  from a clock; instead every operation takes the current instant `now : ℤ`
  explicitly, and the latency measured around an adapter call is supplied by
  the adapter-behaviour oracle.
* Adapter behaviour is an oracle: `probes : ℕ → ProbeResult` gives the outcome
  of the health probe of the provider at each registry index, and
  `gen : ℕ → ℕ → GenResult` gives the outcome of the `k`-th adapter generation
  call of one logical request when it targets provider index `i`.
* Python `float` metrics are modelled exactly: running latency averages as `ℚ`,
  latencies as `ℕ` milliseconds (the code truncates to `int`), and time
  instants/intervals as `ℤ` seconds (exact arithmetic; no claim here depends on
  fractional instants).
* Exceptions become explicit outcome values; the re-raised adapter exception
  carries an abstract payload `err : ℕ`.
* The recursive failover call `self.generate_review(...)` is modelled with
  explicit fuel; the distinguished result `outOfFuel` marks recursion deeper
  than the supplied fuel, so boundedness of the failover loop is the theorem
  that `outOfFuel` is never returned when the fuel exceeds a static bound.
* Python dataclass equality `fallback_provider != provider` is modelled as
  inequality of registry indices: distinct registered records hold distinct
  adapter objects, so two records at distinct indices never compare equal,
  and the record at the same index is the very object just mutated.
-/

/-- Provider status enum (`ProviderStatus` in the source). -/
inductive ProviderStatus where
  | healthy
  | degraded
  | failed
  | unknown
deriving DecidableEq, Repr

/-- Per-provider record (`ProviderInfo` dataclass); the `service` field is
represented by the oracle index of the record, so it does not appear here. -/
structure ProviderInfo where
  name : String
  status : ProviderStatus
  last_health_check : ℤ
  health_check_interval : ℤ
  consecutive_failures : ℕ
  max_failures : ℕ
  requests_handled : ℕ
  last_request_time : ℤ
  total_latency_ms : ℕ
  average_latency_ms : ℚ
deriving DecidableEq, Repr

/-- Field defaults of the `ProviderInfo` dataclass, as used by `add_provider`. -/
def mkProviderInfo (name : String) : ProviderInfo :=
  { name := name
    status := ProviderStatus.unknown
    last_health_check := 0
    health_check_interval := 30
    consecutive_failures := 0
    max_failures := 3
    requests_handled := 0
    last_request_time := 0
    total_latency_ms := 0
    average_latency_ms := 0 }

/-- Mutable state of the `LLMLoadBalancer` object. -/
structure LLMLoadBalancer where
  providers : List ProviderInfo
  current_provider_index : ℕ
  total_requests : ℕ
  last_health_check : ℤ
  health_check_interval : ℤ
deriving DecidableEq, Repr

/-- State built by `LLMLoadBalancer.__init__`. -/
def LLMLoadBalancer.init : LLMLoadBalancer :=
  { providers := []
    current_provider_index := 0
    total_requests := 0
    last_health_check := 0
    health_check_interval := 30 }

/-- `add_provider`: append a fresh record for the named provider. -/
def add_provider (st : LLMLoadBalancer) (name : String) : LLMLoadBalancer :=
  { st with providers := st.providers ++ [mkProviderInfo name] }

/-- The list comprehension `[p for p in self.providers if p.status == HEALTHY]`,
kept together with each record's registry index. -/
def healthyTier (ps : List ProviderInfo) : List (ℕ × ProviderInfo) :=
  ps.enum.filter (fun ip => decide (ip.2.status = ProviderStatus.healthy))

/-- The list comprehension selecting `DEGRADED` records, with registry indices. -/
def degradedTier (ps : List ProviderInfo) : List (ℕ × ProviderInfo) :=
  ps.enum.filter (fun ip => decide (ip.2.status = ProviderStatus.degraded))

/-- The pool `get_next_provider` indexes into: healthy records, or the degraded
ones when no record is healthy. -/
def selectableTier (ps : List ProviderInfo) : List (ℕ × ProviderInfo) :=
  let hs := healthyTier ps
  if hs.isEmpty then degradedTier ps else hs

/-- `get_next_provider`: tiered round-robin selection.  Returns the selected
record together with its registry index, and the successor state (the cursor
advances by one exactly when a record is returned). -/
def get_next_provider (st : LLMLoadBalancer) :
    Option (ℕ × ProviderInfo) × LLMLoadBalancer :=
  if st.providers.isEmpty then (none, st)
  else
    let t := selectableTier st.providers
    if h : t.length = 0 then (none, st)
    else
      (some (t.get ⟨st.current_provider_index % t.length,
              Nat.mod_lt _ (Nat.pos_of_ne_zero h)⟩),
       { st with current_provider_index := st.current_provider_index + 1 })

/-- Outcome of one `service.health_check()` call, as seen by the balancer:
a returned dict with `status == "ok"`, a returned dict with any other status,
or a raised exception.  Latency is the measured probe duration. -/
inductive ProbeResult where
  | ok (latency_ms : ℕ)
  | notOk (latency_ms : ℕ)
  | raisesExc
deriving DecidableEq, Repr

/-- Lines 86-89 of the source: the metrics update shared by both non-raising
probe branches of `health_check_provider`. -/
def probe_metrics_update (p : ProviderInfo) (now : ℤ) (lat : ℕ) : ProviderInfo :=
  { p with
    last_health_check := now
    total_latency_ms := p.total_latency_ms + lat
    average_latency_ms :=
      ((p.total_latency_ms + lat : ℕ) : ℚ) / ((max p.requests_handled 1 : ℕ) : ℚ) }

/-- `health_check_provider`: update one record from a probe outcome. -/
def health_check_provider (pr : ProbeResult) (now : ℤ) (p : ProviderInfo) :
    ProviderInfo :=
  match pr with
  | ProbeResult.ok lat =>
      probe_metrics_update
        { p with status := ProviderStatus.healthy, consecutive_failures := 0 } now lat
  | ProbeResult.notOk lat =>
      let p1 := { p with status := ProviderStatus.degraded,
                         consecutive_failures := p.consecutive_failures + 1 }
      let p2 := if p1.consecutive_failures ≥ p1.max_failures
                then { p1 with status := ProviderStatus.failed } else p1
      probe_metrics_update p2 now lat
  | ProbeResult.raisesExc =>
      { p with status := ProviderStatus.failed,
               consecutive_failures := p.consecutive_failures + 1 }

/-- `health_check_all`: globally rate-limited fan-out probe of all records.
Each probe only touches its own record, so the concurrent `asyncio.gather` is
an index-wise map. -/
def health_check_all (probes : ℕ → ProbeResult) (now : ℤ)
    (st : LLMLoadBalancer) : LLMLoadBalancer :=
  if now - st.last_health_check < st.health_check_interval then st
  else
    { st with
      last_health_check := now
      providers := st.providers.enum.map
        (fun ip => health_check_provider (probes ip.1) now ip.2) }

/-- Outcome of one adapter `generate_review` call: content generation with a
measured latency, or a raised exception with payload `err`. -/
inductive GenResult where
  | success (latency_ms : ℕ)
  | failure (err : ℕ)
deriving DecidableEq, Repr

/-- Whether a `GenResult` is a success. -/
def GenResult.isSuccess : GenResult → Bool
  | GenResult.success _ => true
  | GenResult.failure _ => false

/-- Lines 117-119 of the source: pre-call optimistic updates of the chosen
record. -/
def record_attempt_start (p : ProviderInfo) (now : ℤ) : ProviderInfo :=
  { p with requests_handled := p.requests_handled + 1, last_request_time := now }

/-- Lines 125-127 of the source: post-success latency accounting of the chosen
record. -/
def record_success (p : ProviderInfo) (lat : ℕ) : ProviderInfo :=
  { p with
    total_latency_ms := p.total_latency_ms + lat
    average_latency_ms :=
      ((p.total_latency_ms + lat : ℕ) : ℚ) / ((p.requests_handled : ℕ) : ℚ) }

/-- Lines 142-145 of the source: the record update in the `except` branch of
`generate_review`. -/
def record_gen_failure (p : ProviderInfo) : ProviderInfo :=
  let p1 := { p with consecutive_failures := p.consecutive_failures + 1 }
  if p1.consecutive_failures ≥ p1.max_failures
  then { p1 with status := ProviderStatus.failed } else p1

/-- The `load_balancer` metadata dict attached to a successful result. -/
structure LBMeta where
  provider_used : String
  provider_status : ProviderStatus
  latency_ms : ℕ
  total_requests : ℕ
deriving DecidableEq, Repr

/-- Result of a `generate_review` call on the balancer. -/
inductive ReviewOutcome where
  | ok (meta : LBMeta)
  | noAvailableProviders
  | adapterErr (err : ℕ)
  | outOfFuel
deriving DecidableEq, Repr

/-- `generate_review`: health refresh, selection, optimistic pre-call updates,
adapter call, success accounting or failure bookkeeping with recursive
failover.  Besides the outcome and final state it returns the trace of adapter
attempts `(provider index, adapter outcome)` made for this logical request, in
order.  `fuel` bounds the recursion depth and `k` counts adapter calls already
made for this logical request (it only indexes the oracle). -/
def generate_review (probes : ℕ → ProbeResult) (gen : ℕ → ℕ → GenResult)
    (now : ℤ) :
    ℕ → ℕ → LLMLoadBalancer →
      ReviewOutcome × LLMLoadBalancer × List (ℕ × GenResult)
  | 0, _, st => (ReviewOutcome.outOfFuel, st, [])
  | fuel + 1, k, st =>
    let st0 := health_check_all probes now st
    let sel := get_next_provider st0
    match sel.1 with
    | none => (ReviewOutcome.noAvailableProviders, sel.2, [])
    | some (i, p) =>
      let p1 := record_attempt_start p now
      let st2 := { sel.2 with providers := (sel.2).providers.set i p1 }
      match gen k i with
      | GenResult.success lat =>
        let p2 := record_success p1 lat
        let st3 := { st2 with
                     providers := st2.providers.set i p2
                     total_requests := st2.total_requests + 1 }
        (ReviewOutcome.ok
          { provider_used := p2.name
            provider_status := p2.status
            latency_ms := lat
            total_requests := st2.total_requests + 1 },
         st3, [(i, GenResult.success lat)])
      | GenResult.failure err =>
        let p2 := record_gen_failure p1
        let st3 := { st2 with providers := st2.providers.set i p2 }
        let fb := get_next_provider st3
        match fb.1 with
        | some (j, _) =>
          if j = i then (ReviewOutcome.adapterErr err, fb.2, [(i, GenResult.failure err)])
          else
            let r := generate_review probes gen now fuel (k + 1) fb.2
            (r.1, r.2.1, (i, GenResult.failure err) :: r.2.2)
        | none => (ReviewOutcome.adapterErr err, fb.2, [(i, GenResult.failure err)])

/-- Sum of `requests_handled` over the registry: the local `total_requests`
variable computed inside `get_stats`. -/
def stats_total_handled (st : LLMLoadBalancer) : ℕ :=
  (st.providers.map (fun p => p.requests_handled)).sum

/-- The dict returned by `get_stats`.  A distribution entry of `none` models
the literal string `"0%"`; `some q` models the rendered percentage
`f"{q:.1f}%"`, kept as the exact rational. -/
structure StatsReport where
  total_requests : ℕ
  providers_total : ℕ
  healthy : ℕ
  degraded : ℕ
  failed : ℕ
  distribution : List (String × Option ℚ)
  last_health_check : ℤ
  current_provider_index : ℕ
deriving DecidableEq, Repr

/-- `get_stats`: read-only aggregation over the registry. -/
def get_stats (st : LLMLoadBalancer) : StatsReport :=
  let healthy_count :=
    (st.providers.filter (fun p => decide (p.status = ProviderStatus.healthy))).length
  let degraded_count :=
    (st.providers.filter (fun p => decide (p.status = ProviderStatus.degraded))).length
  let failed_count :=
    (st.providers.filter (fun p => decide (p.status = ProviderStatus.failed))).length
  let total_requests : ℕ := (st.providers.map (fun p => p.requests_handled)).sum
  let distribution := st.providers.map (fun p =>
    if total_requests > 0 then
      (p.name, some (((p.requests_handled : ℚ) / (total_requests : ℚ)) * 100))
    else
      (p.name, (none : Option ℚ)))
  { total_requests := st.total_requests
    providers_total := st.providers.length
    healthy := healthy_count
    degraded := degraded_count
    failed := failed_count
    distribution := distribution
    last_health_check := st.last_health_check
    current_provider_index := st.current_provider_index }

/-- Modelled from the spec (§4.5, claim C6): the distribution the spec sentence
describes, with the balancer's lifetime `totalRequests` counter as the
denominator and `"0%"` (here `none`) for every provider when that counter is
zero.  This definition follows the spec's words, for comparison with
`get_stats`, whose distribution is computed from the source. -/
def spec_distribution (st : LLMLoadBalancer) : List (String × Option ℚ) :=
  st.providers.map (fun p =>
    if st.total_requests > 0 then
      (p.name, some (((p.requests_handled : ℚ) / (st.total_requests : ℚ)) * 100))
    else
      (p.name, (none : Option ℚ)))

/-- Iterated selection: the balancer state after `m` consecutive
`get_next_provider` calls (each call keeps the registry and only may advance
the cursor). -/
def sel_state (st : LLMLoadBalancer) : ℕ → LLMLoadBalancer
  | 0 => st
  | m + 1 => (get_next_provider (sel_state st m)).2

/-- Record-level invariant maintained by every operation of the balancer:
thresholds are positive (the dataclass default is 3 and nothing changes it),
and a selectable (healthy or degraded) record is strictly below its failure
threshold. -/
def RecordInv (p : ProviderInfo) : Prop :=
  0 < p.max_failures ∧
    ((p.status = ProviderStatus.healthy ∨ p.status = ProviderStatus.degraded) →
      p.consecutive_failures < p.max_failures)

instance RecordInv.instDecidable (p : ProviderInfo) : Decidable (RecordInv p) := by
  unfold RecordInv
  exact inferInstance

/-- Registry-level invariant: every record satisfies `RecordInv`. -/
def LBInv (st : LLMLoadBalancer) : Prop := ∀ p ∈ st.providers, RecordInv p

instance LBInv.instDecidable (st : LLMLoadBalancer) : Decidable (LBInv st) := by
  unfold LBInv
  exact List.decidableBAll _ _

/-- Remaining failure budget of one record. -/
def providerMeasure (p : ProviderInfo) : ℕ :=
  p.max_failures - p.consecutive_failures

/-- Remaining failure budget of the whole registry: a bound on how many failed
adapter attempts one logical request can still make. -/
def lbMeasure (ps : List ProviderInfo) : ℕ :=
  (ps.map providerMeasure).sum

/-- Fixture: registry of two healthy providers, cursor 0, recently probed. -/
def twoHealthySt : LLMLoadBalancer :=
  { providers :=
      [ { mkProviderInfo "a" with status := ProviderStatus.healthy },
        { mkProviderInfo "b" with status := ProviderStatus.healthy } ]
    current_provider_index := 0
    total_requests := 0
    last_health_check := 100
    health_check_interval := 30 }

/-- Fixture: one healthy provider, cursor 0, recently probed. -/
def oneHealthySt : LLMLoadBalancer :=
  { providers := [ { mkProviderInfo "a" with status := ProviderStatus.healthy } ]
    current_provider_index := 0
    total_requests := 0
    last_health_check := 100
    health_check_interval := 30 }

/-- Fixture: one degraded provider with two consecutive failures (below the
threshold of 3), recently probed. -/
def degradedCf2St : LLMLoadBalancer :=
  { providers :=
      [ { mkProviderInfo "a" with
            status := ProviderStatus.degraded, consecutive_failures := 2 } ]
    current_provider_index := 0
    total_requests := 0
    last_health_check := 100
    health_check_interval := 30 }

/-- Fixture: the reachable state used against claim C6 — register one provider,
probe it healthy at instant 100, then at instant 120 (inside the rate-limit
window) make one generation call whose adapter raises; the attempt bumps
`requests_handled` to 1 while the lifetime `total_requests` counter stays 0. -/
def c6St : LLMLoadBalancer :=
  (generate_review (fun _ => ProbeResult.ok 5) (fun _ _ => GenResult.failure 9) 120 2 0
    (health_check_all (fun _ => ProbeResult.ok 5) 100
      (add_provider LLMLoadBalancer.init "a"))).2.1

/-- The intermediate balancer state reached inside `generate_review`, after a
selection that returned record `p` at index `i`, an optimistic pre-call update,
and a failed adapter call (the state named `st3` in the body of
`generate_review`, assuming the initial `health_check_all` was a rate-limited
no-op). -/
def failure_fallback_state (st : LLMLoadBalancer) (i : ℕ) (p : ProviderInfo)
    (now : ℤ) : LLMLoadBalancer :=
  { (get_next_provider st).2 with
    providers :=
      (((get_next_provider st).2).providers.set i
        (record_attempt_start p now)).set i
        (record_gen_failure (record_attempt_start p now)) }

/-! ### Basic facts about the selector -/

theorem selectableTier_nil : selectableTier [] = [] := rfl

theorem mem_selectableTier_status {ps : List ProviderInfo} {x : ℕ × ProviderInfo}
    (hx : x ∈ selectableTier ps) :
    x.2.status = ProviderStatus.healthy ∨ x.2.status = ProviderStatus.degraded := by
  simp only [selectableTier] at hx
  split at hx
  · right
    simpa using (List.mem_filter.mp hx).2
  · left
    simpa using (List.mem_filter.mp hx).2

theorem mem_selectableTier_lookup {ps : List ProviderInfo} {x : ℕ × ProviderInfo}
    (hx : x ∈ selectableTier ps) : ps[x.1]? = some x.2 := by
  simp only [selectableTier] at hx
  have hmem : x ∈ ps.enum := by
    split at hx
    · exact (List.mem_filter.mp hx).1
    · exact (List.mem_filter.mp hx).1
  exact List.mem_enum_iff_getElem?.mp hmem

theorem selectableTier_ne_nil_of_providers_ne_nil {ps : List ProviderInfo}
    (h : selectableTier ps ≠ []) : ps ≠ [] := by
  intro hnil
  rw [hnil, selectableTier_nil] at h
  exact h rfl

theorem get_next_provider_of_tier_nil (st : LLMLoadBalancer)
    (h : selectableTier st.providers = []) : get_next_provider st = (none, st) := by
  unfold get_next_provider
  by_cases hps : st.providers.isEmpty
  · rw [if_pos hps]
  · rw [if_neg hps]
    have hlen : (selectableTier st.providers).length = 0 := by rw [h]; rfl
    rw [dif_pos hlen]

theorem get_next_provider_of_tier_ne_nil (st : LLMLoadBalancer)
    (h : selectableTier st.providers ≠ []) :
    get_next_provider st =
      (some ((selectableTier st.providers).get
         ⟨st.current_provider_index % (selectableTier st.providers).length,
          Nat.mod_lt _ (List.length_pos.mpr h)⟩),
       { st with current_provider_index := st.current_provider_index + 1 }) := by
  unfold get_next_provider
  have hps : st.providers.isEmpty = false := by
    have := selectableTier_ne_nil_of_providers_ne_nil h
    simpa [List.isEmpty_iff] using this
  rw [if_neg (by simp [hps])]
  have hlen : ¬ (selectableTier st.providers).length = 0 := by
    simpa [List.length_eq_zero] using h
  rw [dif_neg hlen]

theorem get_next_provider_fst_eq_none_iff (st : LLMLoadBalancer) :
    (get_next_provider st).1 = none ↔ selectableTier st.providers = [] := by
  constructor
  · intro h
    by_contra hne
    rw [get_next_provider_of_tier_ne_nil st hne] at h
    exact Option.some_ne_none _ h
  · intro h
    rw [get_next_provider_of_tier_nil st h]

theorem get_next_provider_some_spec {st : LLMLoadBalancer} {i : ℕ} {p : ProviderInfo}
    (h : (get_next_provider st).1 = some (i, p)) :
    (i, p) ∈ selectableTier st.providers ∧
      st.providers[i]? = some p ∧
      (p.status = ProviderStatus.healthy ∨ p.status = ProviderStatus.degraded) ∧
      (get_next_provider st).2 =
        { st with current_provider_index := st.current_provider_index + 1 } := by
  have hne : selectableTier st.providers ≠ [] := by
    intro hnil
    rw [get_next_provider_of_tier_nil st hnil] at h
    exact Option.noConfusion h
  have heq := get_next_provider_of_tier_ne_nil st hne
  rw [heq] at h
  have hip : (i, p) = (selectableTier st.providers).get
      ⟨st.current_provider_index % (selectableTier st.providers).length,
       Nat.mod_lt _ (List.length_pos.mpr hne)⟩ := by
    exact (Option.some.injEq _ _ ▸ h).symm
  have hmem : (i, p) ∈ selectableTier st.providers := by
    rw [hip]; exact List.get_mem _ _ _
  refine ⟨hmem, mem_selectableTier_lookup hmem, mem_selectableTier_status hmem, ?_⟩
  rw [heq]

/-! ### Basic facts about the health monitor -/

theorem health_check_all_of_skip {probes : ℕ → ProbeResult} {now : ℤ}
    {st : LLMLoadBalancer}
    (h : now - st.last_health_check < st.health_check_interval) :
    health_check_all probes now st = st := by
  unfold health_check_all
  rw [if_pos h]

theorem health_check_all_interval (probes : ℕ → ProbeResult) (now : ℤ)
    (st : LLMLoadBalancer) :
    (health_check_all probes now st).health_check_interval =
      st.health_check_interval := by
  unfold health_check_all
  split <;> rfl

theorem health_check_all_total_requests (probes : ℕ → ProbeResult) (now : ℤ)
    (st : LLMLoadBalancer) :
    (health_check_all probes now st).total_requests = st.total_requests := by
  unfold health_check_all
  split <;> rfl

theorem health_check_all_cursor (probes : ℕ → ProbeResult) (now : ℤ)
    (st : LLMLoadBalancer) :
    (health_check_all probes now st).current_provider_index =
      st.current_provider_index := by
  unfold health_check_all
  split <;> rfl

theorem health_check_all_skip_state {probes : ℕ → ProbeResult} {now : ℤ}
    {st : LLMLoadBalancer} (hpos : 0 < st.health_check_interval) :
    now - (health_check_all probes now st).last_health_check <
      (health_check_all probes now st).health_check_interval := by
  unfold health_check_all
  split
  · assumption
  · simpa using hpos

theorem health_check_all_idem {probes : ℕ → ProbeResult} {now : ℤ}
    {st : LLMLoadBalancer} (hpos : 0 < st.health_check_interval) :
    health_check_all probes now (health_check_all probes now st) =
      health_check_all probes now st :=
  health_check_all_of_skip (health_check_all_skip_state hpos)

theorem health_check_all_providers_nil {probes : ℕ → ProbeResult} {now : ℤ}
    {st : LLMLoadBalancer} (h : st.providers = []) :
    (health_check_all probes now st).providers = [] := by
  unfold health_check_all
  split
  · exact h
  · simp [h]

/-! ### Claim C9 -/

/-- C9: a `health_check_all` call issued before `health_check_interval` seconds
have elapsed since the previous refresh is a complete no-op: the state —
including every record's status, `consecutive_failures`, counters, latency
metrics, and the balancer's `last_health_check` timestamp — is unchanged. -/
theorem claim_C9_second_refresh_noop (probes1 probes2 : ℕ → ProbeResult)
    (t0 now : ℤ) (st : LLMLoadBalancer)
    (h : now - (health_check_all probes1 t0 st).last_health_check <
         (health_check_all probes1 t0 st).health_check_interval) :
    health_check_all probes2 now (health_check_all probes1 t0 st) =
      health_check_all probes1 t0 st :=
  health_check_all_of_skip h

/-- Witness for C9: a fresh balancer refreshed at instant 100 and refreshed
again at instant 110 (10 s later, inside the 30 s window) is unchanged by the
second refresh. -/
theorem claim_C9_witness :
    health_check_all (fun _ => ProbeResult.notOk 2) 110
        (health_check_all (fun _ => ProbeResult.ok 1) 100 LLMLoadBalancer.init) =
      health_check_all (fun _ => ProbeResult.ok 1) 100 LLMLoadBalancer.init :=
  claim_C9_second_refresh_noop (fun _ => ProbeResult.ok 1)
    (fun _ => ProbeResult.notOk 2) 100 110 LLMLoadBalancer.init (by decide)

/-! ### Claim C7 -/

/-- C7: the selector never returns a record whose status is `Failed`: a
returned record always sits in the healthy tier or in the degraded fallback
tier. -/
theorem claim_C7_selector_never_returns_failed (st : LLMLoadBalancer)
    (i : ℕ) (p : ProviderInfo)
    (h : (get_next_provider st).1 = some (i, p)) :
    p.status ≠ ProviderStatus.failed := by
  rcases get_next_provider_some_spec h with ⟨-, -, hstat, -⟩
  rcases hstat with h1 | h1 <;> simp [h1]

/-- Witness for C7: on a registry with one healthy provider the selector
returns that record, and its status is indeed not `Failed`. -/
theorem claim_C7_witness :
    ({ mkProviderInfo "a" with status := ProviderStatus.healthy } :
        ProviderInfo).status ≠ ProviderStatus.failed :=
  claim_C7_selector_never_returns_failed oneHealthySt 0
    { mkProviderInfo "a" with status := ProviderStatus.healthy } (by decide)

/-! ### Claim C2 (corrected) -/

/-- Counterexample to C2 as stated: a generation-call success does not reset
the record.  One degraded record with `consecutive_failures = 2` serves a
successful generation call (the outcome is `ok`, served by that record), yet
afterwards its status is still `Degraded` and its `consecutive_failures` is
still 2 — not `Healthy` with 0 as the claim requires for every success
outcome. -/
theorem claim_C2_counterexample :
    (generate_review (fun _ => ProbeResult.ok 1) (fun _ _ => GenResult.success 7)
        100 2 0 degradedCf2St).1 =
      ReviewOutcome.ok
        { provider_used := "a"
          provider_status := ProviderStatus.degraded
          latency_ms := 7
          total_requests := 1 } ∧
    ((generate_review (fun _ => ProbeResult.ok 1) (fun _ _ => GenResult.success 7)
        100 2 0 degradedCf2St).2.1.providers.map
      (fun p => (p.status, p.consecutive_failures))) =
        [(ProviderStatus.degraded, 2)] := by
  constructor
  · decide
  · decide

/-- C2 (amended): a *probe* success sets the record `Healthy` with
`consecutive_failures = 0` regardless of its prior state, but a *generation*
success leaves both the status and `consecutive_failures` unchanged (it only
updates the latency metrics). -/
theorem claim_C2_amended :
    (∀ (p : ProviderInfo) (now : ℤ) (lat : ℕ),
      (health_check_provider (ProbeResult.ok lat) now p).status =
          ProviderStatus.healthy ∧
      (health_check_provider (ProbeResult.ok lat) now p).consecutive_failures = 0) ∧
    (∀ (p : ProviderInfo) (lat : ℕ),
      (record_success p lat).status = p.status ∧
      (record_success p lat).consecutive_failures = p.consecutive_failures) := by
  refine ⟨fun p now lat => ⟨rfl, rfl⟩, fun p lat => ⟨rfl, rfl⟩⟩

/-! ### Claim C3 (corrected) -/

/-- Counterexample to C3 as stated: a health probe that raises sends the
record straight to `Failed` even though the new failure count (1) is still
strictly below the threshold (3); the claim requires `Degraded` there. -/
theorem claim_C3_counterexample :
    (health_check_provider ProbeResult.raisesExc 0
        { mkProviderInfo "a" with status := ProviderStatus.healthy }).status =
      ProviderStatus.failed ∧
    (health_check_provider ProbeResult.raisesExc 0
        { mkProviderInfo "a" with status := ProviderStatus.healthy
          }).consecutive_failures = 1 ∧
    1 < ({ mkProviderInfo "a" with status := ProviderStatus.healthy } :
        ProviderInfo).max_failures := by
  refine ⟨rfl, rfl, by decide⟩

/-- C3 (amended): every failure path increments `consecutive_failures` by
exactly one.  A probe failure that *returns* a non-ok status maps the record to
`Degraded` below the threshold and to `Failed` once the new count reaches it; a
generation-call failure maps to `Failed` at the threshold but leaves the status
unchanged below it; a probe that *raises* maps to `Failed` immediately,
whatever the count. -/
theorem claim_C3_amended (p : ProviderInfo) (now : ℤ) (lat : ℕ) :
    ((health_check_provider (ProbeResult.notOk lat) now p).consecutive_failures =
        p.consecutive_failures + 1 ∧
     (health_check_provider ProbeResult.raisesExc now p).consecutive_failures =
        p.consecutive_failures + 1 ∧
     (record_gen_failure p).consecutive_failures = p.consecutive_failures + 1) ∧
    (health_check_provider (ProbeResult.notOk lat) now p).status =
      (if p.consecutive_failures + 1 ≥ p.max_failures then ProviderStatus.failed
       else ProviderStatus.degraded) ∧
    (record_gen_failure p).status =
      (if p.consecutive_failures + 1 ≥ p.max_failures then ProviderStatus.failed
       else p.status) ∧
    (health_check_provider ProbeResult.raisesExc now p).status =
      ProviderStatus.failed := by
  refine ⟨⟨?_, rfl, ?_⟩, ?_, ?_, rfl⟩
  · simp only [health_check_provider, probe_metrics_update]
    split <;> rfl
  · simp only [record_gen_failure]
    split <;> rfl
  · simp only [health_check_provider, probe_metrics_update]
    split <;> simp_all
  · simp only [record_gen_failure]
    split <;> simp_all

/-! ### Claim C4 (corrected) -/

/-- Counterexample to C4 as stated: a successful health probe on a fresh
record folds the probe latency into the accumulator without incrementing
`requests_handled`, so right after that operation `requests_handled = 0` while
`average_latency_ms = 5 ≠ 0` — the claimed invariant demands 0 there. -/
theorem claim_C4_counterexample :
    (health_check_provider (ProbeResult.ok 5) 100 (mkProviderInfo "a")).requests_handled
      = 0 ∧
    (health_check_provider (ProbeResult.ok 5) 100 (mkProviderInfo "a")).average_latency_ms
      = 5 ∧
    (health_check_provider (ProbeResult.ok 5) 100 (mkProviderInfo "a")).average_latency_ms
      ≠ 0 := by
  refine ⟨rfl, ?_, ?_⟩
  · show ((0 + 5 : ℕ) : ℚ) / ((max 0 1 : ℕ) : ℚ) = 5
    norm_num
  · show ((0 + 5 : ℕ) : ℚ) / ((max 0 1 : ℕ) : ℚ) ≠ 0
    norm_num

/-- C4 (amended): the average-latency bookkeeping holds in the form the code
computes it — immediately after a completed (non-raising) probe,
`average_latency_ms = total_latency_ms / max(requests_handled, 1)`, and
immediately after the success path of a generation call (pre-call increment
then latency fold), `average_latency_ms = total_latency_ms / requests_handled`
with `requests_handled > 0`.  It does not hold as an unconditional invariant
after every operation. -/
theorem claim_C4_amended (p : ProviderInfo) (now : ℤ) (lat : ℕ) :
    ((health_check_provider (ProbeResult.ok lat) now p).average_latency_ms =
      ((health_check_provider (ProbeResult.ok lat) now p).total_latency_ms : ℚ) /
        ((max (health_check_provider (ProbeResult.ok lat) now p).requests_handled 1 : ℕ) : ℚ) ∧
     (health_check_provider (ProbeResult.notOk lat) now p).average_latency_ms =
      ((health_check_provider (ProbeResult.notOk lat) now p).total_latency_ms : ℚ) /
        ((max (health_check_provider (ProbeResult.notOk lat) now p).requests_handled 1 : ℕ) : ℚ)) ∧
    (0 < (record_success (record_attempt_start p now) lat).requests_handled ∧
     (record_success (record_attempt_start p now) lat).average_latency_ms =
      ((record_success (record_attempt_start p now) lat).total_latency_ms : ℚ) /
        ((record_success (record_attempt_start p now) lat).requests_handled : ℚ)) := by
  refine ⟨⟨?_, ?_⟩, Nat.succ_pos _, ?_⟩
  · simp [health_check_provider, probe_metrics_update]
  · simp [health_check_provider, probe_metrics_update]
  · simp [record_success, record_attempt_start]

/-! ### Claim C5: round robin over an all-healthy registry -/

theorem selectableTier_of_all_healthy {ps : List ProviderInfo}
    (hall : ∀ p ∈ ps, p.status = ProviderStatus.healthy) (hne : ps ≠ []) :
    selectableTier ps = ps.enum := by
  have hfilter : healthyTier ps = ps.enum := by
    unfold healthyTier
    refine List.filter_eq_self.mpr (fun x hx => ?_)
    have hx2 : x.2 ∈ ps :=
      List.getElem?_mem (List.mem_enum_iff_getElem?.mp hx)
    simp [hall x.2 hx2]
  simp only [selectableTier, hfilter]
  rw [if_neg]
  simp [List.isEmpty_iff, List.enum_eq_nil, hne]

theorem get_next_provider_all_healthy {st : LLMLoadBalancer}
    (hall : ∀ p ∈ st.providers, p.status = ProviderStatus.healthy)
    (hne : st.providers ≠ []) :
    (get_next_provider st).1 =
      (st.providers[st.current_provider_index % st.providers.length]?).map
        (fun p => (st.current_provider_index % st.providers.length, p)) ∧
    (get_next_provider st).2 =
      { st with current_provider_index := st.current_provider_index + 1 } := by
  have htier := selectableTier_of_all_healthy hall hne
  have htne : selectableTier st.providers ≠ [] := by
    rw [htier]
    simp [List.enum_eq_nil, hne]
  have heq := get_next_provider_of_tier_ne_nil st htne
  have hlen : (selectableTier st.providers).length = st.providers.length := by
    rw [htier, List.enum_length]
  have hpos : 0 < st.providers.length := List.length_pos.mpr hne
  have hmod : st.current_provider_index % st.providers.length <
      st.providers.length := Nat.mod_lt _ hpos
  constructor
  · rw [heq]
    show some ((selectableTier st.providers).get _) = _
    have h1 : (some ((selectableTier st.providers).get
        ⟨st.current_provider_index % (selectableTier st.providers).length,
         Nat.mod_lt _ (List.length_pos.mpr htne)⟩) :
          Option (ℕ × ProviderInfo)) =
        (selectableTier st.providers)[st.current_provider_index %
          (selectableTier st.providers).length]? :=
      (List.getElem?_eq_getElem (Nat.mod_lt _ (List.length_pos.mpr htne))).symm
    rw [h1, htier, List.enum_length, List.getElem?_enum]
  · rw [heq]

theorem sel_state_all_healthy {st : LLMLoadBalancer}
    (hall : ∀ p ∈ st.providers, p.status = ProviderStatus.healthy)
    (hne : st.providers ≠ []) (m : ℕ) :
    (sel_state st m).providers = st.providers ∧
      (sel_state st m).current_provider_index =
        st.current_provider_index + m := by
  induction m with
  | zero => exact ⟨rfl, rfl⟩
  | succ m ih =>
    have hall' : ∀ p ∈ (sel_state st m).providers,
        p.status = ProviderStatus.healthy := by
      rw [ih.1]; exact hall
    have hne' : (sel_state st m).providers ≠ [] := by
      rw [ih.1]; exact hne
    have h := (get_next_provider_all_healthy hall' hne').2
    constructor
    · show (get_next_provider (sel_state st m)).2.providers = st.providers
      rw [h]
      exact ih.1
    · show (get_next_provider (sel_state st m)).2.current_provider_index =
        st.current_provider_index + (m + 1)
      rw [h]
      show (sel_state st m).current_provider_index + 1 =
        st.current_provider_index + (m + 1)
      rw [ih.2]
      omega

/-- C5: with all `N` registered providers healthy and no intervening status
change, `N` consecutive selector calls return each provider exactly once, in
registration order starting from the current cursor value modulo `N`, and the
cursor advances by exactly one on each call.  The `m`-th call (counting from
0) returns the record at registry index `(cursor₀ + m) % N`, the cursor before
that call is `cursor₀ + m`, and for `m < N` these indices are pairwise
distinct. -/
theorem claim_C5_round_robin (st : LLMLoadBalancer)
    (hall : ∀ p ∈ st.providers, p.status = ProviderStatus.healthy)
    (hne : st.providers ≠ []) :
    (∀ m, (sel_state st m).current_provider_index =
        st.current_provider_index + m) ∧
    (∀ m, (get_next_provider (sel_state st m)).1 =
        (st.providers[(st.current_provider_index + m) % st.providers.length]?).map
          (fun p =>
            ((st.current_provider_index + m) % st.providers.length, p))) ∧
    (∀ m1 m2, m1 < st.providers.length → m2 < st.providers.length →
      (st.current_provider_index + m1) % st.providers.length =
        (st.current_provider_index + m2) % st.providers.length → m1 = m2) := by
  refine ⟨fun m => (sel_state_all_healthy hall hne m).2, fun m => ?_, ?_⟩
  · have hps := (sel_state_all_healthy hall hne m).1
    have hcur := (sel_state_all_healthy hall hne m).2
    have hall' : ∀ p ∈ (sel_state st m).providers,
        p.status = ProviderStatus.healthy := by rw [hps]; exact hall
    have hne' : (sel_state st m).providers ≠ [] := by rw [hps]; exact hne
    have h := (get_next_provider_all_healthy hall' hne').1
    rw [h, hps, hcur]
  · intro m1 m2 h1 h2 heq
    have hmod : m1 % st.providers.length = m2 % st.providers.length :=
      Nat.ModEq.add_left_cancel' st.current_provider_index heq
    rw [Nat.mod_eq_of_lt h1, Nat.mod_eq_of_lt h2] at hmod
    exact hmod

/-- Witness for C5: on the two-provider all-healthy fixture with cursor 0,
the second selector call (m = 1) returns the record at registry index 1 and
the cursor before it is 1. -/
theorem claim_C5_witness :
    (sel_state twoHealthySt 1).current_provider_index =
        twoHealthySt.current_provider_index + 1 ∧
    (get_next_provider (sel_state twoHealthySt 1)).1 =
      (twoHealthySt.providers[(twoHealthySt.current_provider_index + 1) %
          twoHealthySt.providers.length]?).map
        (fun p =>
          ((twoHealthySt.current_provider_index + 1) %
              twoHealthySt.providers.length, p)) :=
  ⟨(claim_C5_round_robin twoHealthySt (by decide) (by decide)).1 1,
   (claim_C5_round_robin twoHealthySt (by decide) (by decide)).2.1 1⟩

/-! ### Field lemmas for the record updates -/

theorem record_gen_failure_cf (p : ProviderInfo) :
    (record_gen_failure p).consecutive_failures = p.consecutive_failures + 1 := by
  simp only [record_gen_failure]
  split <;> rfl

theorem record_gen_failure_max (p : ProviderInfo) :
    (record_gen_failure p).max_failures = p.max_failures := by
  simp only [record_gen_failure]
  split <;> rfl

theorem record_gen_failure_status (p : ProviderInfo) :
    (record_gen_failure p).status =
      if p.consecutive_failures + 1 ≥ p.max_failures then ProviderStatus.failed
      else p.status := by
  simp only [record_gen_failure]
  split <;> rfl

theorem hcp_max (pr : ProbeResult) (now : ℤ) (p : ProviderInfo) :
    (health_check_provider pr now p).max_failures = p.max_failures := by
  cases pr
  · rfl
  · simp only [health_check_provider, probe_metrics_update]
    split <;> rfl
  · rfl

theorem hcp_notOk_cf (lat : ℕ) (now : ℤ) (p : ProviderInfo) :
    (health_check_provider (ProbeResult.notOk lat) now p).consecutive_failures =
      p.consecutive_failures + 1 := by
  simp only [health_check_provider, probe_metrics_update]
  split <;> rfl

theorem hcp_notOk_status (lat : ℕ) (now : ℤ) (p : ProviderInfo) :
    (health_check_provider (ProbeResult.notOk lat) now p).status =
      if p.consecutive_failures + 1 ≥ p.max_failures then ProviderStatus.failed
      else ProviderStatus.degraded := by
  simp only [health_check_provider, probe_metrics_update]
  split <;> rfl

/-! ### Preservation of the registry invariant -/

theorem recordInv_hcp (pr : ProbeResult) (now : ℤ) {p : ProviderInfo}
    (h : RecordInv p) : RecordInv (health_check_provider pr now p) := by
  obtain ⟨hmax, hsel⟩ := h
  refine ⟨by rw [hcp_max]; exact hmax, ?_⟩
  intro hst
  cases pr with
  | ok lat =>
      show (0 : ℕ) < _
      rw [hcp_max]
      exact hmax
  | notOk lat =>
      rw [hcp_notOk_status] at hst
      rw [hcp_notOk_cf, hcp_max]
      by_cases hc : p.consecutive_failures + 1 ≥ p.max_failures
      · rw [if_pos hc] at hst
        rcases hst with hst | hst <;> exact absurd hst (by simp)
      · omega
  | raisesExc =>
      rcases hst with hst | hst <;> exact absurd hst (by simp [health_check_provider])

theorem recordInv_rgf_ras (now : ℤ) {p : ProviderInfo} (h : RecordInv p) :
    RecordInv (record_gen_failure (record_attempt_start p now)) := by
  obtain ⟨hmax, -⟩ := h
  refine ⟨by rw [record_gen_failure_max]; exact hmax, ?_⟩
  intro hst
  rw [record_gen_failure_status] at hst
  rw [record_gen_failure_cf, record_gen_failure_max]
  show (record_attempt_start p now).consecutive_failures + 1 <
    (record_attempt_start p now).max_failures
  by_cases hc : (record_attempt_start p now).consecutive_failures + 1 ≥
      (record_attempt_start p now).max_failures
  · rw [if_pos hc] at hst
    rcases hst with hst | hst <;> exact absurd hst (by simp)
  · omega

theorem lbInv_health_check_all (probes : ℕ → ProbeResult) (now : ℤ)
    {st : LLMLoadBalancer} (h : LBInv st) :
    LBInv (health_check_all probes now st) := by
  unfold health_check_all
  split
  · exact h
  · intro q hq
    rcases List.mem_map.mp hq with ⟨ip, hip, rfl⟩
    exact recordInv_hcp _ _ (h ip.2 (List.getElem?_mem (List.mem_enum_iff_getElem?.mp hip)))

theorem lbInv_set {ps : List ProviderInfo} {i : ℕ} {q : ProviderInfo}
    (h : ∀ p ∈ ps, RecordInv p) (hq : RecordInv q) :
    ∀ p ∈ ps.set i q, RecordInv p := fun p hp =>
  (List.mem_or_eq_of_mem_set hp).elim (h p) (fun he => he ▸ hq)

/-! ### The decreasing measure of the failover loop -/

theorem lbMeasure_cons (a : ProviderInfo) (l : List ProviderInfo) :
    lbMeasure (a :: l) = providerMeasure a + lbMeasure l := by
  simp [lbMeasure]

theorem providerMeasure_lt_of_failure {p : ProviderInfo}
    (h : p.consecutive_failures < p.max_failures) (now : ℤ) :
    providerMeasure (record_gen_failure (record_attempt_start p now)) <
      providerMeasure p := by
  unfold providerMeasure
  rw [record_gen_failure_cf, record_gen_failure_max]
  show p.max_failures - (p.consecutive_failures + 1) <
    p.max_failures - p.consecutive_failures
  omega

theorem lbMeasure_set_lt :
    ∀ (ps : List ProviderInfo) (i : ℕ) (p p' : ProviderInfo),
      ps[i]? = some p → providerMeasure p' < providerMeasure p →
      lbMeasure (ps.set i p') < lbMeasure ps := by
  intro ps
  induction ps with
  | nil => intro i p p' h _; simp at h
  | cons a l ih =>
    intro i p p' h hlt
    cases i with
    | zero =>
      rw [List.getElem?_cons_zero] at h
      have ha : a = p := by injection h
      show lbMeasure (p' :: l) < lbMeasure (a :: l)
      rw [lbMeasure_cons, lbMeasure_cons, ha]
      omega
    | succ i =>
      rw [List.getElem?_cons_succ] at h
      show lbMeasure (a :: l.set i p') < lbMeasure (a :: l)
      rw [lbMeasure_cons, lbMeasure_cons]
      have := ih i p p' h hlt
      omega

theorem lbMeasure_le_max_sum :
    ∀ ps : List ProviderInfo,
      lbMeasure ps ≤ (ps.map (fun p => p.max_failures)).sum := by
  intro ps
  induction ps with
  | nil => simp [lbMeasure]
  | cons a l ih =>
    rw [lbMeasure_cons, List.map_cons, List.sum_cons]
    have : providerMeasure a ≤ a.max_failures := Nat.sub_le _ _
    omega

theorem health_check_all_max_sum (probes : ℕ → ProbeResult) (now : ℤ)
    (st : LLMLoadBalancer) :
    ((health_check_all probes now st).providers.map
        (fun p => p.max_failures)).sum =
      (st.providers.map (fun p => p.max_failures)).sum := by
  unfold health_check_all
  split
  · rfl
  · show ((st.providers.enum.map _).map _).sum = _
    rw [List.map_map]
    have hfun : ((fun p => p.max_failures) ∘
        (fun ip : ℕ × ProviderInfo =>
          health_check_provider (probes ip.1) now ip.2)) =
        (fun p => p.max_failures) ∘ Prod.snd :=
      funext fun ip => hcp_max _ _ _
    rw [hfun, ← List.map_map, List.enum_map_snd]

/-! ### Frame facts about the selector's successor state -/

theorem gnp_snd_cases (st : LLMLoadBalancer) :
    (get_next_provider st).2 = st ∨
    (get_next_provider st).2 =
      { st with current_provider_index := st.current_provider_index + 1 } := by
  by_cases h : selectableTier st.providers = []
  · left; rw [get_next_provider_of_tier_nil st h]
  · right; rw [get_next_provider_of_tier_ne_nil st h]

theorem gnp_snd_providers (st : LLMLoadBalancer) :
    (get_next_provider st).2.providers = st.providers := by
  rcases gnp_snd_cases st with h | h <;> rw [h]

theorem gnp_snd_total_requests (st : LLMLoadBalancer) :
    (get_next_provider st).2.total_requests = st.total_requests := by
  rcases gnp_snd_cases st with h | h <;> rw [h]

theorem gnp_snd_last_health_check (st : LLMLoadBalancer) :
    (get_next_provider st).2.last_health_check = st.last_health_check := by
  rcases gnp_snd_cases st with h | h <;> rw [h]

theorem gnp_snd_interval (st : LLMLoadBalancer) :
    (get_next_provider st).2.health_check_interval = st.health_check_interval := by
  rcases gnp_snd_cases st with h | h <;> rw [h]

/-! ### Step equations for `generate_review` on a rate-limited (no-op) refresh -/

theorem gr_none_step {probes : ℕ → ProbeResult} {gen : ℕ → ℕ → GenResult}
    {now : ℤ} {fuel k : ℕ} {st : LLMLoadBalancer}
    (hskip : now - st.last_health_check < st.health_check_interval)
    (hsel : (get_next_provider st).1 = none) :
    generate_review probes gen now (fuel + 1) k st =
      (ReviewOutcome.noAvailableProviders, (get_next_provider st).2, []) := by
  simp only [generate_review]
  rw [health_check_all_of_skip hskip]
  simp only [hsel]

theorem gr_success_step {probes : ℕ → ProbeResult} {gen : ℕ → ℕ → GenResult}
    {now : ℤ} {fuel k : ℕ} {st : LLMLoadBalancer} {i : ℕ} {p : ProviderInfo}
    {lat : ℕ}
    (hskip : now - st.last_health_check < st.health_check_interval)
    (hsel : (get_next_provider st).1 = some (i, p))
    (hgen : gen k i = GenResult.success lat) :
    generate_review probes gen now (fuel + 1) k st =
      (ReviewOutcome.ok
        { provider_used := (record_success (record_attempt_start p now) lat).name
          provider_status := (record_success (record_attempt_start p now) lat).status
          latency_ms := lat
          total_requests := (get_next_provider st).2.total_requests + 1 },
       { (get_next_provider st).2 with
         providers :=
           (((get_next_provider st).2).providers.set i
             (record_attempt_start p now)).set i
             (record_success (record_attempt_start p now) lat)
         total_requests := (get_next_provider st).2.total_requests + 1 },
       [(i, GenResult.success lat)]) := by
  simp only [generate_review]
  rw [health_check_all_of_skip hskip]
  simp only [hsel, hgen]

theorem gr_failure_step {probes : ℕ → ProbeResult} {gen : ℕ → ℕ → GenResult}
    {now : ℤ} {fuel k : ℕ} {st : LLMLoadBalancer} {i : ℕ} {p : ProviderInfo}
    {err : ℕ}
    (hskip : now - st.last_health_check < st.health_check_interval)
    (hsel : (get_next_provider st).1 = some (i, p))
    (hgen : gen k i = GenResult.failure err) :
    generate_review probes gen now (fuel + 1) k st =
      (match (get_next_provider (failure_fallback_state st i p now)).1 with
       | some (j, _) =>
          if j = i then
            (ReviewOutcome.adapterErr err,
             (get_next_provider (failure_fallback_state st i p now)).2,
             [(i, GenResult.failure err)])
          else
            ((generate_review probes gen now fuel (k + 1)
                (get_next_provider (failure_fallback_state st i p now)).2).1,
             (generate_review probes gen now fuel (k + 1)
                (get_next_provider (failure_fallback_state st i p now)).2).2.1,
             (i, GenResult.failure err) ::
               (generate_review probes gen now fuel (k + 1)
                 (get_next_provider (failure_fallback_state st i p now)).2).2.2)
       | none =>
          (ReviewOutcome.adapterErr err,
           (get_next_provider (failure_fallback_state st i p now)).2,
           [(i, GenResult.failure err)])) := by
  simp only [generate_review, failure_fallback_state]
  rw [health_check_all_of_skip hskip]
  simp only [hsel, hgen]

theorem ffs_providers (st : LLMLoadBalancer) (i : ℕ) (p : ProviderInfo)
    (now : ℤ) :
    (failure_fallback_state st i p now).providers =
      st.providers.set i (record_gen_failure (record_attempt_start p now)) := by
  show ((get_next_provider st).2.providers.set i
      (record_attempt_start p now)).set i
      (record_gen_failure (record_attempt_start p now)) = _
  rw [List.set_set, gnp_snd_providers]

theorem ffs_last_health_check (st : LLMLoadBalancer) (i : ℕ) (p : ProviderInfo)
    (now : ℤ) :
    (failure_fallback_state st i p now).last_health_check =
      st.last_health_check := by
  show (get_next_provider st).2.last_health_check = _
  exact gnp_snd_last_health_check st

theorem ffs_interval (st : LLMLoadBalancer) (i : ℕ) (p : ProviderInfo)
    (now : ℤ) :
    (failure_fallback_state st i p now).health_check_interval =
      st.health_check_interval := by
  show (get_next_provider st).2.health_check_interval = _
  exact gnp_snd_interval st

theorem ffs_total_requests (st : LLMLoadBalancer) (i : ℕ) (p : ProviderInfo)
    (now : ℤ) :
    (failure_fallback_state st i p now).total_requests = st.total_requests := by
  show (get_next_provider st).2.total_requests = _
  exact gnp_snd_total_requests st

/-- Master induction for the failover loop: on a rate-limited (no-op) refresh
state satisfying the registry invariant, with fuel exceeding the remaining
failure budget, `generate_review` never runs out of fuel, and whenever it
surfaces an adapter error that error is the one of the last attempt in the
trace. -/
theorem gr_bounded_aux (probes : ℕ → ProbeResult) (gen : ℕ → ℕ → GenResult)
    (now : ℤ) :
    ∀ (fuel k : ℕ) (st : LLMLoadBalancer),
      LBInv st →
      now - st.last_health_check < st.health_check_interval →
      lbMeasure st.providers < fuel →
      (generate_review probes gen now fuel k st).1 ≠ ReviewOutcome.outOfFuel ∧
      (∀ e, (generate_review probes gen now fuel k st).1 =
          ReviewOutcome.adapterErr e →
        ∃ i, ((generate_review probes gen now fuel k st).2.2).getLast? =
          some (i, GenResult.failure e)) := by
  intro fuel
  induction fuel with
  | zero => intro k st _ _ hm; exact absurd hm (Nat.not_lt_zero _)
  | succ fuel ih =>
    intro k st hinv hskip hm
    rcases hsel : (get_next_provider st).1 with - | ⟨i, p⟩
    · rw [gr_none_step hskip hsel]
      exact ⟨fun h => ReviewOutcome.noConfusion h,
             fun e he => ReviewOutcome.noConfusion he⟩
    · rcases hgen : gen k i with ⟨lat⟩ | ⟨err⟩
      · rw [gr_success_step hskip hsel hgen]
        exact ⟨fun h => ReviewOutcome.noConfusion h,
               fun e he => ReviewOutcome.noConfusion he⟩
      · rw [gr_failure_step hskip hsel hgen]
        obtain ⟨-, hlook, hstat, -⟩ := get_next_provider_some_spec hsel
        have hpmem : p ∈ st.providers := List.getElem?_mem hlook
        have hcf : p.consecutive_failures < p.max_failures :=
          (hinv p hpmem).2 hstat
        have hinv4 : LBInv (get_next_provider
            (failure_fallback_state st i p now)).2 := by
          intro r hr
          rw [gnp_snd_providers, ffs_providers] at hr
          exact lbInv_set hinv (recordInv_rgf_ras now (hinv p hpmem)) r hr
        have hskip4 : now - (get_next_provider
            (failure_fallback_state st i p now)).2.last_health_check <
            (get_next_provider
              (failure_fallback_state st i p now)).2.health_check_interval := by
          rw [gnp_snd_last_health_check, gnp_snd_interval,
              ffs_last_health_check, ffs_interval]
          exact hskip
        have hm4 : lbMeasure (get_next_provider
            (failure_fallback_state st i p now)).2.providers < fuel := by
          rw [gnp_snd_providers, ffs_providers]
          have hlt := lbMeasure_set_lt st.providers i p
            (record_gen_failure (record_attempt_start p now)) hlook
            (providerMeasure_lt_of_failure hcf now)
          omega
        obtain ⟨hof, hlast⟩ := ih (k + 1)
          (get_next_provider (failure_fallback_state st i p now)).2
          hinv4 hskip4 hm4
        split
        · -- fallback selection returned a record
          split
          · -- same index: the adapter error is re-raised
            refine ⟨fun h => ReviewOutcome.noConfusion h, ?_⟩
            intro e he
            obtain rfl : err = e := by injection he
            exact ⟨i, by simp⟩
          · -- distinct index: recurse
            refine ⟨fun h => hof h, ?_⟩
            intro e he
            obtain ⟨i', hl⟩ := hlast e he
            refine ⟨i', ?_⟩
            rcases htr : (generate_review probes gen now fuel (k + 1)
                (get_next_provider (failure_fallback_state st i p now)).2).2.2
              with - | ⟨b, bs⟩
            · rw [htr] at hl
              exact absurd hl (by simp)
            · rw [htr] at hl
              show ((i, GenResult.failure err) :: b :: bs).getLast? = _
              rw [List.getLast?_cons_cons]
              exact hl
        · -- no fallback available: the adapter error is re-raised
          refine ⟨fun h => ReviewOutcome.noConfusion h, ?_⟩
          intro e he
          obtain rfl : err = e := by injection he
          exact ⟨i, by simp⟩

/-! ### Claim C1 (corrected) -/

theorem gr_absorb {probes : ℕ → ProbeResult} {gen : ℕ → ℕ → GenResult}
    {now : ℤ} {fuel k : ℕ} {st : LLMLoadBalancer}
    (hpos : 0 < st.health_check_interval) :
    generate_review probes gen now (fuel + 1) k st =
      generate_review probes gen now (fuel + 1) k
        (health_check_all probes now st) := by
  simp only [generate_review]
  rw [health_check_all_idem hpos]

/-- Counterexample to C1 as stated: with two registered providers, both
`Healthy` (hence non-`Failed`), and an adapter that always fails, one logical
`generate_review` request attempts provider 0 three times (attempt trace
`[0, 0, 0, 1]`), so the failover loop does retry the same registered,
non-`Failed` provider more than once for a single logical request. -/
theorem claim_C1_counterexample :
    (twoHealthySt.providers.map (fun p => p.status)) =
      [ProviderStatus.healthy, ProviderStatus.healthy] ∧
    ((generate_review (fun _ => ProbeResult.ok 1) (fun k _ => GenResult.failure k)
        100 10 0 twoHealthySt).2.2.map Prod.fst) = [0, 0, 0, 1] ∧
    1 < List.count 0
      ((generate_review (fun _ => ProbeResult.ok 1) (fun k _ => GenResult.failure k)
        100 10 0 twoHealthySt).2.2.map Prod.fst) := by
  refine ⟨by decide, by decide, by decide⟩

/-- C1 (amended): the failover loop is bounded, but not by attempting each
provider at most once.  Each failed attempt consumes one unit of the
registry's failure budget (the chosen record's `consecutive_failures` rises
towards its threshold, after which the record is `Failed` and unselectable),
so with any fuel exceeding the registered providers' summed `max_failures` the
recursion terminates without exhausting the fuel; and when it gives up, the
error surfaced to the caller is exactly the most recent underlying adapter
failure (re-raised directly — there is no dedicated `AllProvidersExhausted`
wrapper), namely the failure of the last attempt in the trace.  The same
provider may be retried up to its `max_failures` times within one logical
request. -/
theorem claim_C1_amended (probes : ℕ → ProbeResult) (gen : ℕ → ℕ → GenResult)
    (now : ℤ) (k fuel : ℕ) (st : LLMLoadBalancer)
    (hinv : LBInv st) (hpos : 0 < st.health_check_interval)
    (hfuel : (st.providers.map (fun p => p.max_failures)).sum < fuel) :
    (generate_review probes gen now fuel k st).1 ≠ ReviewOutcome.outOfFuel ∧
    (∀ e, (generate_review probes gen now fuel k st).1 =
        ReviewOutcome.adapterErr e →
      ∃ i, ((generate_review probes gen now fuel k st).2.2).getLast? =
        some (i, GenResult.failure e)) := by
  cases fuel with
  | zero => exact absurd hfuel (Nat.not_lt_zero _)
  | succ fuel =>
    rw [gr_absorb hpos]
    refine gr_bounded_aux probes gen now (fuel + 1) k
      (health_check_all probes now st)
      (lbInv_health_check_all probes now hinv)
      (health_check_all_skip_state hpos) ?_
    calc lbMeasure (health_check_all probes now st).providers
        ≤ ((health_check_all probes now st).providers.map
            (fun p => p.max_failures)).sum := lbMeasure_le_max_sum _
      _ = (st.providers.map (fun p => p.max_failures)).sum :=
          health_check_all_max_sum probes now st
      _ < fuel + 1 := hfuel

/-- Witness for C1 (amended): on the two-healthy-provider fixture with an
always-failing adapter and fuel 7 (exceeding the summed thresholds 3 + 3),
the request does not run out of fuel. -/
theorem claim_C1_witness :
    (generate_review (fun _ => ProbeResult.ok 1) (fun k _ => GenResult.failure k)
        100 7 0 twoHealthySt).1 ≠ ReviewOutcome.outOfFuel :=
  (claim_C1_amended (fun _ => ProbeResult.ok 1) (fun k _ => GenResult.failure k)
    100 0 7 twoHealthySt (by decide) (by decide) (by decide)).1

/-! ### Claim C8 -/

theorem healthyTier_eq_nil_iff (ps : List ProviderInfo) :
    healthyTier ps = [] ↔ ∀ p ∈ ps, p.status ≠ ProviderStatus.healthy := by
  unfold healthyTier
  rw [List.filter_eq_nil_iff]
  constructor
  · intro h p hp
    obtain ⟨i, hi⟩ := List.mem_iff_getElem?.mp hp
    have := h (i, p) (List.mem_enum_iff_getElem?.mpr hi)
    simpa using this
  · intro h ip hip
    have : ip.2 ∈ ps := List.getElem?_mem (List.mem_enum_iff_getElem?.mp hip)
    simpa using h ip.2 this

theorem degradedTier_eq_nil_iff (ps : List ProviderInfo) :
    degradedTier ps = [] ↔ ∀ p ∈ ps, p.status ≠ ProviderStatus.degraded := by
  unfold degradedTier
  rw [List.filter_eq_nil_iff]
  constructor
  · intro h p hp
    obtain ⟨i, hi⟩ := List.mem_iff_getElem?.mp hp
    have := h (i, p) (List.mem_enum_iff_getElem?.mpr hi)
    simpa using this
  · intro h ip hip
    have : ip.2 ∈ ps := List.getElem?_mem (List.mem_enum_iff_getElem?.mp hip)
    simpa using h ip.2 this

theorem selectableTier_eq_nil_iff (ps : List ProviderInfo) :
    selectableTier ps = [] ↔
      ∀ p ∈ ps,
        p.status ≠ ProviderStatus.healthy ∧
        p.status ≠ ProviderStatus.degraded := by
  simp only [selectableTier]
  constructor
  · intro h
    by_cases hh : (healthyTier ps).isEmpty
    · rw [if_pos hh] at h
      intro p hp
      refine ⟨(healthyTier_eq_nil_iff ps).mp (List.isEmpty_iff.mp hh) p hp,
              (degradedTier_eq_nil_iff ps).mp h p hp⟩
    · rw [if_neg hh] at h
      exact absurd (List.isEmpty_iff.mpr h) hh
  · intro h
    have h1 : healthyTier ps = [] :=
      (healthyTier_eq_nil_iff ps).mpr (fun p hp => (h p hp).1)
    rw [if_pos (List.isEmpty_iff.mpr h1)]
    exact (degradedTier_eq_nil_iff ps).mpr (fun p hp => (h p hp).2)

theorem gr_no_navail (probes : ℕ → ProbeResult) (gen : ℕ → ℕ → GenResult)
    (now : ℤ) :
    ∀ (fuel k : ℕ) (st : LLMLoadBalancer) (x : ℕ × ProviderInfo),
      now - st.last_health_check < st.health_check_interval →
      (get_next_provider st).1 = some x →
      (generate_review probes gen now fuel k st).1 ≠
        ReviewOutcome.noAvailableProviders := by
  intro fuel
  induction fuel with
  | zero => intro k st x _ _ h; exact ReviewOutcome.noConfusion h
  | succ fuel ih =>
    intro k st x hskip hsel
    obtain ⟨i, p⟩ := x
    rcases hgen : gen k i with ⟨lat⟩ | ⟨err⟩
    · rw [gr_success_step hskip hsel hgen]
      exact fun h => ReviewOutcome.noConfusion h
    · rw [gr_failure_step hskip hsel hgen]
      have hS4skip : now - (get_next_provider
          (failure_fallback_state st i p now)).2.last_health_check <
          (get_next_provider
            (failure_fallback_state st i p now)).2.health_check_interval := by
        rw [gnp_snd_last_health_check, gnp_snd_interval,
            ffs_last_health_check, ffs_interval]
        exact hskip
      split
      · rename_i j q hfb
        split
        · exact fun h => ReviewOutcome.noConfusion h
        · have htier : selectableTier
              (failure_fallback_state st i p now).providers ≠ [] := by
            intro hn
            rw [get_next_provider_of_tier_nil _ hn] at hfb
            exact Option.noConfusion hfb
          have htier4 : selectableTier (get_next_provider
              (failure_fallback_state st i p now)).2.providers ≠ [] := by
            rw [gnp_snd_providers]
            exact htier
          rcases hy : (get_next_provider (get_next_provider
              (failure_fallback_state st i p now)).2).1 with - | y
          · exact absurd ((get_next_provider_fst_eq_none_iff _).mp hy) htier4
          · exact ih (k + 1) _ y hS4skip hy
      · exact fun h => ReviewOutcome.noConfusion h

/-- C8: a `generate_review` call fails with `NoAvailableProviders` exactly when
its initial selection (performed right after the health refresh at the top of
the call) finds no registered record with status `Healthy` or `Degraded`; in
that case no adapter generation call is made (the attempt trace is empty), and
with zero registered providers every call fails this way. -/
theorem claim_C8_no_available_providers (probes : ℕ → ProbeResult)
    (gen : ℕ → ℕ → GenResult) (now : ℤ) (fuel k : ℕ) (st : LLMLoadBalancer)
    (hpos : 0 < st.health_check_interval) :
    ((generate_review probes gen now (fuel + 1) k st).1 =
        ReviewOutcome.noAvailableProviders ↔
      (∀ p ∈ (health_check_all probes now st).providers,
        p.status ≠ ProviderStatus.healthy ∧
        p.status ≠ ProviderStatus.degraded)) ∧
    ((∀ p ∈ (health_check_all probes now st).providers,
        p.status ≠ ProviderStatus.healthy ∧
        p.status ≠ ProviderStatus.degraded) →
      (generate_review probes gen now (fuel + 1) k st).2.2 = []) ∧
    (st.providers = [] →
      (generate_review probes gen now (fuel + 1) k st).1 =
          ReviewOutcome.noAvailableProviders ∧
      (generate_review probes gen now (fuel + 1) k st).2.2 = []) := by
  have hskip : now - (health_check_all probes now st).last_health_check <
      (health_check_all probes now st).health_check_interval :=
    health_check_all_skip_state hpos
  have hfwd : (generate_review probes gen now (fuel + 1) k st).1 =
      ReviewOutcome.noAvailableProviders →
      ∀ p ∈ (health_check_all probes now st).providers,
        p.status ≠ ProviderStatus.healthy ∧
        p.status ≠ ProviderStatus.degraded := by
    intro h
    rcases hsel : (get_next_provider (health_check_all probes now st)).1
      with - | x
    · exact (selectableTier_eq_nil_iff _).mp
        ((get_next_provider_fst_eq_none_iff _).mp hsel)
    · rw [gr_absorb hpos] at h
      exact absurd h
        (gr_no_navail probes gen now (fuel + 1) k _ x hskip hsel)
  have hbwd : (∀ p ∈ (health_check_all probes now st).providers,
      p.status ≠ ProviderStatus.healthy ∧
      p.status ≠ ProviderStatus.degraded) →
      generate_review probes gen now (fuel + 1) k st =
        (ReviewOutcome.noAvailableProviders,
         (get_next_provider (health_check_all probes now st)).2, []) := by
    intro h
    have hsel : (get_next_provider (health_check_all probes now st)).1 = none :=
      (get_next_provider_fst_eq_none_iff _).mpr
        ((selectableTier_eq_nil_iff _).mpr h)
    rw [gr_absorb hpos]
    exact gr_none_step hskip hsel
  refine ⟨⟨hfwd, fun h => by rw [hbwd h]⟩, fun h => by rw [hbwd h], ?_⟩
  intro hnil
  have h : ∀ p ∈ (health_check_all probes now st).providers,
      p.status ≠ ProviderStatus.healthy ∧
      p.status ≠ ProviderStatus.degraded := by
    rw [health_check_all_providers_nil hnil]
    intro p hp
    exact absurd hp (List.not_mem_nil p)
  rw [hbwd h]
  exact ⟨rfl, rfl⟩

/-- Witness for C8: a fresh balancer with zero registered providers fails with
`NoAvailableProviders` and makes no adapter call. -/
theorem claim_C8_witness :
    (generate_review (fun _ => ProbeResult.ok 1)
        (fun _ _ => GenResult.success 1) 100 1 0 LLMLoadBalancer.init).1 =
      ReviewOutcome.noAvailableProviders ∧
    (generate_review (fun _ => ProbeResult.ok 1)
        (fun _ _ => GenResult.success 1) 100 1 0 LLMLoadBalancer.init).2.2 = [] :=
  (claim_C8_no_available_providers (fun _ => ProbeResult.ok 1)
    (fun _ _ => GenResult.success 1) 100 0 0 LLMLoadBalancer.init
    (by decide)).2.2 rfl

/-! ### Claim C10 -/

theorem record_gen_failure_requests (p : ProviderInfo) :
    (record_gen_failure p).requests_handled = p.requests_handled := by
  simp only [record_gen_failure]
  split <;> rfl

theorem record_gen_failure_last_request (p : ProviderInfo) :
    (record_gen_failure p).last_request_time = p.last_request_time := by
  simp only [record_gen_failure]
  split <;> rfl

theorem record_gen_failure_total_latency (p : ProviderInfo) :
    (record_gen_failure p).total_latency_ms = p.total_latency_ms := by
  simp only [record_gen_failure]
  split <;> rfl

theorem record_gen_failure_average (p : ProviderInfo) :
    (record_gen_failure p).average_latency_ms = p.average_latency_ms := by
  simp only [record_gen_failure]
  split <;> rfl

theorem gr_none_step_hc {probes : ℕ → ProbeResult} {gen : ℕ → ℕ → GenResult}
    {now : ℤ} {fuel k : ℕ} {st : LLMLoadBalancer}
    (hsel : (get_next_provider (health_check_all probes now st)).1 = none) :
    generate_review probes gen now (fuel + 1) k st =
      (ReviewOutcome.noAvailableProviders,
       (get_next_provider (health_check_all probes now st)).2, []) := by
  simp only [generate_review]
  simp only [hsel]

theorem gr_success_step_hc {probes : ℕ → ProbeResult} {gen : ℕ → ℕ → GenResult}
    {now : ℤ} {fuel k : ℕ} {st : LLMLoadBalancer} {i : ℕ} {p : ProviderInfo}
    {lat : ℕ}
    (hsel : (get_next_provider (health_check_all probes now st)).1 =
      some (i, p))
    (hgen : gen k i = GenResult.success lat) :
    generate_review probes gen now (fuel + 1) k st =
      (ReviewOutcome.ok
        { provider_used := (record_success (record_attempt_start p now) lat).name
          provider_status := (record_success (record_attempt_start p now) lat).status
          latency_ms := lat
          total_requests :=
            (get_next_provider (health_check_all probes now st)).2.total_requests
              + 1 },
       { (get_next_provider (health_check_all probes now st)).2 with
         providers :=
           (((get_next_provider (health_check_all probes now st)).2).providers.set
             i (record_attempt_start p now)).set i
             (record_success (record_attempt_start p now) lat)
         total_requests :=
           (get_next_provider (health_check_all probes now st)).2.total_requests
             + 1 },
       [(i, GenResult.success lat)]) := by
  simp only [generate_review]
  simp only [hsel, hgen]

theorem gr_failure_step_hc {probes : ℕ → ProbeResult} {gen : ℕ → ℕ → GenResult}
    {now : ℤ} {fuel k : ℕ} {st : LLMLoadBalancer} {i : ℕ} {p : ProviderInfo}
    {err : ℕ}
    (hsel : (get_next_provider (health_check_all probes now st)).1 =
      some (i, p))
    (hgen : gen k i = GenResult.failure err) :
    generate_review probes gen now (fuel + 1) k st =
      (match (get_next_provider
          (failure_fallback_state (health_check_all probes now st) i p now)).1
        with
       | some (j, _) =>
          if j = i then
            (ReviewOutcome.adapterErr err,
             (get_next_provider
               (failure_fallback_state (health_check_all probes now st) i p now)).2,
             [(i, GenResult.failure err)])
          else
            ((generate_review probes gen now fuel (k + 1)
                (get_next_provider
                  (failure_fallback_state (health_check_all probes now st) i p now)).2).1,
             (generate_review probes gen now fuel (k + 1)
                (get_next_provider
                  (failure_fallback_state (health_check_all probes now st) i p now)).2).2.1,
             (i, GenResult.failure err) ::
               (generate_review probes gen now fuel (k + 1)
                 (get_next_provider
                   (failure_fallback_state (health_check_all probes now st) i p now)).2).2.2)
       | none =>
          (ReviewOutcome.adapterErr err,
           (get_next_provider
             (failure_fallback_state (health_check_all probes now st) i p now)).2,
           [(i, GenResult.failure err)])) := by
  simp only [generate_review, failure_fallback_state]
  simp only [hsel, hgen]

/-- The balancer's lifetime `total_requests` counter grows by exactly the
number of successful adapter attempts of the call: failed attempts contribute
nothing, however many retries happen. -/
theorem gr_total_requests (probes : ℕ → ProbeResult) (gen : ℕ → ℕ → GenResult)
    (now : ℤ) :
    ∀ (fuel k : ℕ) (st : LLMLoadBalancer),
      (generate_review probes gen now fuel k st).2.1.total_requests =
        st.total_requests +
          ((generate_review probes gen now fuel k st).2.2.filter
            (fun a => (a.2).isSuccess)).length := by
  intro fuel
  induction fuel with
  | zero => intro k st; simp [generate_review]
  | succ fuel ih =>
    intro k st
    rcases hsel : (get_next_provider (health_check_all probes now st)).1
      with - | ⟨i, p⟩
    · rw [gr_none_step_hc hsel]
      show (get_next_provider (health_check_all probes now st)).2.total_requests
        = st.total_requests + (List.filter _ []).length
      rw [gnp_snd_total_requests, health_check_all_total_requests]
      simp
    · rcases hgen : gen k i with ⟨lat⟩ | ⟨err⟩
      · rw [gr_success_step_hc hsel hgen]
        show (get_next_provider (health_check_all probes now st)).2.total_requests
            + 1 = st.total_requests + _
        rw [gnp_snd_total_requests, health_check_all_total_requests]
        simp [GenResult.isSuccess]
      · rw [gr_failure_step_hc hsel hgen]
        split
        · rename_i j q hfb
          split
          · show (get_next_provider
                (failure_fallback_state (health_check_all probes now st) i p now)).2.total_requests
              = st.total_requests + _
            rw [gnp_snd_total_requests, ffs_total_requests,
                health_check_all_total_requests]
            simp [GenResult.isSuccess]
          · show (generate_review probes gen now fuel (k + 1) _).2.1.total_requests
              = st.total_requests + _
            rw [ih (k + 1)]
            rw [gnp_snd_total_requests, ffs_total_requests,
                health_check_all_total_requests]
            simp [GenResult.isSuccess]
        · show (get_next_provider
              (failure_fallback_state (health_check_all probes now st) i p now)).2.total_requests
            = st.total_requests + _
          rw [gnp_snd_total_requests, ffs_total_requests,
              health_check_all_total_requests]
          simp [GenResult.isSuccess]

/-- C10: a failed adapter attempt's optimistic pre-call updates are not rolled
back — the chosen record keeps `requests_handled` incremented by one and the
new `last_request_time` — while the failed attempt contributes nothing to the
record's `total_latency_ms` or `average_latency_ms`; and the balancer's
lifetime `total_requests` counter counts only successful attempts, so a failed
attempt never increments it. -/
theorem claim_C10_failed_attempt_frame :
    (∀ (p : ProviderInfo) (now : ℤ),
      (record_gen_failure (record_attempt_start p now)).requests_handled =
          p.requests_handled + 1 ∧
      (record_gen_failure (record_attempt_start p now)).last_request_time = now ∧
      (record_gen_failure (record_attempt_start p now)).total_latency_ms =
          p.total_latency_ms ∧
      (record_gen_failure (record_attempt_start p now)).average_latency_ms =
          p.average_latency_ms) ∧
    (∀ (probes : ℕ → ProbeResult) (gen : ℕ → ℕ → GenResult) (now : ℤ)
        (fuel k : ℕ) (st : LLMLoadBalancer),
      (generate_review probes gen now fuel k st).2.1.total_requests =
        st.total_requests +
          ((generate_review probes gen now fuel k st).2.2.filter
            (fun a => (a.2).isSuccess)).length) := by
  constructor
  · intro p now
    exact ⟨record_gen_failure_requests _, record_gen_failure_last_request _,
           record_gen_failure_total_latency _, record_gen_failure_average _⟩
  · intro probes gen now fuel k st
    exact gr_total_requests probes gen now fuel k st

/-! ### Claim C6 (corrected) -/

/-- Counterexample to C6 as stated: in the reachable state `c6St` the
balancer's lifetime `totalRequests` counter is 0, so the claim requires a
`"0%"` (here `none`) distribution entry for every provider; but the provider
has `requests_handled = 1` from a failed attempt, and `get_stats` — which
divides by the sum of per-provider `requests_handled`, not by the lifetime
counter — reports a computed percentage (`some` value) instead.  The
spec-modelled distribution (`spec_distribution`) disagrees with the code's. -/
theorem claim_C6_counterexample :
    c6St.total_requests = 0 ∧
    (c6St.providers.map (fun p => p.requests_handled)) = [1] ∧
    ((get_stats c6St).distribution.map (fun e => (e.1, e.2.isSome))) =
      [("a", true)] ∧
    ((spec_distribution c6St).map (fun e => (e.1, e.2.isSome))) =
      [("a", false)] := by
  refine ⟨by decide, by decide, by decide, by decide⟩

/-- C6 (amended): each provider's distribution entry in `get_stats` equals its
`requests_handled` divided by the **sum of `requests_handled` over all
providers** times 100, and is `"0%"` (`none`) for every provider exactly when
that sum — not the balancer's lifetime `totalRequests` counter — is zero. -/
theorem claim_C6_amended (st : LLMLoadBalancer) :
    (∀ (i : ℕ) (p : ProviderInfo), st.providers[i]? = some p →
      (get_stats st).distribution[i]? =
        some (p.name,
          if stats_total_handled st > 0 then
            some (((p.requests_handled : ℚ) / (stats_total_handled st : ℚ)) * 100)
          else none)) ∧
    (stats_total_handled st = 0 →
      ∀ e ∈ (get_stats st).distribution, e.2 = none) := by
  constructor
  · intro i p h
    show (st.providers.map _)[i]? = _
    rw [List.getElem?_map, h]
    show some (if stats_total_handled st > 0 then _ else _) = _
    split
    · rfl
    · rfl
  · intro h e he
    have he' : e ∈ st.providers.map (fun p =>
        if stats_total_handled st > 0 then
          (p.name, some (((p.requests_handled : ℚ) /
            (stats_total_handled st : ℚ)) * 100))
        else (p.name, (none : Option ℚ))) := he
    rcases List.mem_map.mp he' with ⟨p, -, rfl⟩
    rw [if_neg (by omega)]

/-- Witness for C6 (amended): on the one-provider fixture with no requests
handled, the single distribution entry is the `"0%"` marker. -/
theorem claim_C6_witness :
    (get_stats oneHealthySt).distribution[0]? =
      some (({ mkProviderInfo "a" with status := ProviderStatus.healthy } :
          ProviderInfo).name,
        if stats_total_handled oneHealthySt > 0 then
          some (((({ mkProviderInfo "a" with
              status := ProviderStatus.healthy } :
                ProviderInfo).requests_handled : ℚ) /
            (stats_total_handled oneHealthySt : ℚ)) * 100)
        else none) :=
  (claim_C6_amended oneHealthySt).1 0
    { mkProviderInfo "a" with status := ProviderStatus.healthy } (by decide)
